import Mathlib

/-!
Shallow embedding of `src/fs.rs` of the s3plot repository: file discovery
(`find_files`), session assembly (`open_files`) and the application-level
open entry point (`PlotApp::try_open`).

File-system effects are made explicit: a directory listing is a value of
type `Except DataError (List DirEntry)` (mirroring `std::fs::read_dir`
followed by per-entry `Result`s), and the contents of files are supplied by
oracle functions (`readData`, `readTemp`) standing for `open_data` /
`open_temp`, which in the source open a file and decode it with
`read_extend`. The decoder, the channel accessors and the formula
evaluator live in `data.rs` / `eval.rs` / `app.rs`, which are not part of
the sources here; they are either universally quantified parameters or
definitions modelled from the spec, marked as such in their doc comments.
-/

deriving instance DecidableEq for Except

namespace S3Plot

/-- A path as `find_files` / `open_files` observe it:
`isFile` is `path.is_file()`, `ext` is `path.extension()` when that
extension is valid UTF-8 (`none` when absent or not UTF-8, in which case it
can never equal `"bin"`), `stem` is `path.file_stem()?.to_str()` collapsed
to one `Option` (`none` when the stem is absent or not valid UTF-8), and
`pathUtf8` is `path.to_str()` (`none` when the full path is not valid
UTF-8). -/
structure FsPath where
  isFile : Bool
  ext : Option String
  stem : Option String
  pathUtf8 : Option String
  deriving DecidableEq, Repr

/-- One or more ASCII digits read as a base-10 natural number. -/
def parseDigits (ds : List Char) : Option Nat :=
  if ds.isEmpty then none
  else if ds.all (fun c => c.isDigit) then
    some (ds.foldl (fun n c => n * 10 + (c.toNat - 48)) 0)
  else none

/-- Rust `str::parse::<usize>`: an optional leading `+` followed by one or
more ASCII digits. Overflow of the machine word is not modelled; the
integer value is kept exact. -/
def parseUsize (s : String) : Option Nat :=
  match s.data with
  | '+' :: rest => parseDigits rest
  | ds => parseDigits ds

/-- The inner helper `filename` of `find_files`: requires the extension to
be `"bin"` and returns the UTF-8 file stem. -/
def filename (p : FsPath) : Option String :=
  match p.ext with
  | none => none
  | some e => if e != "bin" then none else p.stem

/-- The error type `data::Error` as `find_files` / `open_data` / `open_temp` surface it:
an I/O failure or a decode failure, each carrying its display message. -/
inductive DataError where
  | io (msg : String)
  | decode (msg : String)
  deriving DecidableEq, Repr

/-- Display rendering `e.to_string()` of a `data::Error`. -/
def DataError.toMsg : DataError → String
  | .io m => m
  | .decode m => m

/-- One step of the `read_dir` iterator: either a directory entry (already
projected to the fields the code inspects) or an I/O error, as in
`let entry = entry?;`. -/
inductive DirEntry where
  | ok (p : FsPath)
  | err (e : DataError)
  deriving DecidableEq, Repr

/-- The resolved file set `Files` (`fs.rs`, lines 14–18). -/
structure Files where
  data : List FsPath
  temp : Option FsPath
  deriving DecidableEq, Repr

/-- The insertion in `find_files` (lines 134–141): scan for the first
existing key `k` with `n < k` and insert there, so equal keys keep
directory order. -/
def insertByKey (n : Nat) (p : FsPath) : List (Nat × FsPath) → List (Nat × FsPath)
  | [] => [(n, p)]
  | (k, q) :: rest =>
    if n < k then (n, p) :: (k, q) :: rest else (k, q) :: insertByKey n p rest

/-- The `for entry in std::fs::read_dir(path)?` loop of `find_files`,
carrying the current `files.temp` and the keyed `paths` accumulator. An
entry error aborts the whole loop (`entry?`). -/
def findFilesLoop : List DirEntry → Option FsPath → List (Nat × FsPath) →
    Except DataError (Option FsPath × List (Nat × FsPath))
  | [], temp, paths => .ok (temp, paths)
  | .err e :: _, _, _ => .error e
  | .ok p :: rest, temp, paths =>
    if !p.isFile then findFilesLoop rest temp paths
    else
      match filename p with
      | none => findFilesLoop rest temp paths
      | some name =>
        if name == "temperature" then findFilesLoop rest (some p) paths
        else
          match parseUsize name with
          | some n => findFilesLoop rest temp (insertByKey n p paths)
          | none => findFilesLoop rest temp paths

/-- File discovery `find_files` (`fs.rs`, lines 113–149). The argument is the result of
`std::fs::read_dir`: an error when the directory is unreadable, otherwise
the list of entry results in directory-iteration order. -/
def find_files (dir : Except DataError (List DirEntry)) : Except DataError Files :=
  match dir with
  | .error e => .error e
  | .ok entries =>
    match findFilesLoop entries none [] with
    | .error e => .error e
    | .ok (temp, paths) => .ok { data := paths.map (fun kp => kp.2), temp := temp }

/-- Schema discriminator `data::Version`. Its concrete layout lives in
`data.rs`; here it is an opaque key, as `open_files` only threads it
through to the decoder. -/
structure Version where
  id : Nat
  deriving DecidableEq, Repr

/-- Modelled from the spec: a `TelemetryEntry` (`data.rs` is not among the
sources) is "one immutable sampled record with a timestamp and, depending
on SchemaVersion, per-wheel fields for power, velocity, commanded torque,
and realized torque"; each channel accessor "maps an entry to an optional
numeric value". Numeric values are modelled as rationals. -/
structure DataEntry where
  time : Rat
  power_fl : Option Rat
  power_fr : Option Rat
  power_rl : Option Rat
  power_rr : Option Rat
  velocity_fl : Option Rat
  velocity_fr : Option Rat
  velocity_rl : Option Rat
  velocity_rr : Option Rat
  torque_set_fl : Option Rat
  torque_set_fr : Option Rat
  torque_set_rl : Option Rat
  torque_set_rr : Option Rat
  torque_real_fl : Option Rat
  torque_real_fr : Option Rat
  torque_real_rl : Option Rat
  torque_real_rr : Option Rat
  deriving DecidableEq, Repr

/-- Modelled from the spec: a `TemperatureEntry` (`data.rs` is not among
the sources) has a timestamp, per-wheel temperature, per-wheel room
temperature, per-wheel heatsink temperature, a maximum battery-management
temperature and two coolant temperatures. -/
structure TempEntry where
  time : Rat
  temp_fl : Option Rat
  temp_fr : Option Rat
  temp_rl : Option Rat
  temp_rr : Option Rat
  room_temp_fl : Option Rat
  room_temp_fr : Option Rat
  room_temp_rl : Option Rat
  room_temp_rr : Option Rat
  heatsink_temp_fl : Option Rat
  heatsink_temp_fr : Option Rat
  heatsink_temp_rl : Option Rat
  heatsink_temp_rr : Option Rat
  ams_temp_max : Option Rat
  water_temp_converter : Option Rat
  water_temp_motor : Option Rat
  deriving DecidableEq, Repr

/-- An ordered list of (timestamp, value) samples. -/
abbrev ChannelSeries := List (Rat × Rat)

/-- Modelled from the spec: `map_over_time` of `data.rs` (not among the
sources) "walks the log in order, applies the accessor to each entry, and
emits a (timestamp, value) pair only when the accessor yields a value;
entries where it is absent are skipped". -/
def mapOverTime (time : ε → Rat) (f : ε → Option Rat) (log : List ε) : ChannelSeries :=
  log.filterMap (fun e => (f e).map (fun v => (time e, v)))

/-- The struct `app::WheelValues` instantiated at one series per wheel position. -/
structure WheelValues where
  fl : ChannelSeries
  fr : ChannelSeries
  rl : ChannelSeries
  rr : ChannelSeries
  deriving DecidableEq, Repr

/-- The struct `plot::CustomPlot` restricted to the field `open_files` reads: the
formula text `expr`. -/
structure CustomPlot where
  expr : String
  deriving DecidableEq, Repr

/-- Modelled from the spec: `app::CustomValues` (`app.rs` is not among the
sources) holds "either a successfully evaluated ChannelSeries or a
per-formula evaluation error — never a session-wide failure". -/
inductive CustomValues where
  | ok (series : ChannelSeries)
  | err (msg : String)
  deriving DecidableEq, Repr

/-- Modelled from the spec: `CustomValues::from_result` wraps one
formula's evaluation result into its result slot. -/
def CustomValues.from_result : Except String ChannelSeries → CustomValues
  | .ok s => .ok s
  | .error e => .err e

/-- The session-fatal error `app::Error`, carrying the failing file and a
human-readable message. -/
structure AppError where
  file : String
  msg : String
  deriving DecidableEq, Repr

/-- The session value `app::PlotData`, with exactly the fields `open_files` constructs. -/
structure PlotData where
  raw_data : List DataEntry
  raw_temp : List TempEntry
  power : WheelValues
  velocity : WheelValues
  torque_set : WheelValues
  torque_real : WheelValues
  temp : WheelValues
  room_temp : WheelValues
  heatsink_temp : WheelValues
  ams_temp_max : ChannelSeries
  water_temp_converter : ChannelSeries
  water_temp_motor : ChannelSeries
  custom : List CustomValues
  deriving DecidableEq, Repr

/-- The contents of the file system as the decoder sees them: for a path
and a version, either the entries `open_data` would append to the log, or
the `data::Error` (I/O or decode) it would fail with. `open_data` /
`open_temp` open a file and run `read_extend`; both effects are folded
into this oracle. -/
abbrev ReadData := FsPath → Version → Except DataError (List DataEntry)

/-- Like `ReadData`, for the temperature file (`open_temp`). -/
abbrev ReadTemp := FsPath → Version → Except DataError (List TempEntry)

/-- The formula evaluator `eval::eval` (`eval.rs` is not among the
sources), kept as an arbitrary function from formula text and the two logs
to a per-formula result. -/
abbrev EvalFn := String → List DataEntry → List TempEntry → Except String ChannelSeries

/-- The first loop of `open_files` (lines 157–164): decode every data
file in order into the growing log `d`, aborting on the first failure with
`app::Error { file: p.to_str().unwrap_or_default(), msg: e.to_string() }`. -/
def openDataLoop (readData : ReadData) (version : Version) :
    List FsPath → List DataEntry → Except AppError (List DataEntry)
  | [], d => .ok d
  | p :: rest, d =>
    match readData p version with
    | .error e => .error { file := p.pathUtf8.getD "", msg := e.toMsg }
    | .ok es => openDataLoop readData version rest (d ++ es)

/-- The temperature block of `open_files` (lines 166–174): start from
`Temp::default()` (the empty log, per the spec an absent temperature file
yields an empty TemperatureLog) and decode the temperature file when
present, aborting on failure with the same error shape. -/
def readTempOpt (readTemp : ReadTemp) (version : Version) :
    Option FsPath → Except AppError (List TempEntry)
  | none => .ok []
  | some p =>
    match readTemp p version with
    | .error e => .error { file := p.pathUtf8.getD "", msg := e.toMsg }
    | .ok ts => .ok ts

/-- Session assembly `open_files` (`fs.rs`, lines 151–246): build the data log, build the
temperature log, derive every built-in series with `map_over_time`,
evaluate every custom plot, and package the `PlotData`. -/
def open_files (readData : ReadData) (readTemp : ReadTemp) (evalFn : EvalFn)
    (files : Files) (version : Version) (custom_plots : List CustomPlot) :
    Except AppError PlotData :=
  match openDataLoop readData version files.data [] with
  | .error e => .error e
  | .ok d =>
    match readTempOpt readTemp version files.temp with
    | .error e => .error e
    | .ok t =>
      let power : WheelValues :=
        { fl := mapOverTime DataEntry.time DataEntry.power_fl d
          fr := mapOverTime DataEntry.time DataEntry.power_fr d
          rl := mapOverTime DataEntry.time DataEntry.power_rl d
          rr := mapOverTime DataEntry.time DataEntry.power_rr d }
      let velocity : WheelValues :=
        { fl := mapOverTime DataEntry.time DataEntry.velocity_fl d
          fr := mapOverTime DataEntry.time DataEntry.velocity_fr d
          rl := mapOverTime DataEntry.time DataEntry.velocity_rl d
          rr := mapOverTime DataEntry.time DataEntry.velocity_rr d }
      let torque_set : WheelValues :=
        { fl := mapOverTime DataEntry.time DataEntry.torque_set_fl d
          fr := mapOverTime DataEntry.time DataEntry.torque_set_fr d
          rl := mapOverTime DataEntry.time DataEntry.torque_set_rl d
          rr := mapOverTime DataEntry.time DataEntry.torque_set_rr d }
      let torque_real : WheelValues :=
        { fl := mapOverTime DataEntry.time DataEntry.torque_real_fl d
          fr := mapOverTime DataEntry.time DataEntry.torque_real_fr d
          rl := mapOverTime DataEntry.time DataEntry.torque_real_rl d
          rr := mapOverTime DataEntry.time DataEntry.torque_real_rr d }
      let temp : WheelValues :=
        { fl := mapOverTime TempEntry.time TempEntry.temp_fl t
          fr := mapOverTime TempEntry.time TempEntry.temp_fr t
          rl := mapOverTime TempEntry.time TempEntry.temp_rl t
          rr := mapOverTime TempEntry.time TempEntry.temp_rr t }
      let room_temp : WheelValues :=
        { fl := mapOverTime TempEntry.time TempEntry.room_temp_fl t
          fr := mapOverTime TempEntry.time TempEntry.room_temp_fr t
          rl := mapOverTime TempEntry.time TempEntry.room_temp_rl t
          rr := mapOverTime TempEntry.time TempEntry.room_temp_rr t }
      let heatsink_temp : WheelValues :=
        { fl := mapOverTime TempEntry.time TempEntry.heatsink_temp_fl t
          fr := mapOverTime TempEntry.time TempEntry.heatsink_temp_fr t
          rl := mapOverTime TempEntry.time TempEntry.heatsink_temp_rl t
          rr := mapOverTime TempEntry.time TempEntry.heatsink_temp_rr t }
      let ams_temp_max := mapOverTime TempEntry.time TempEntry.ams_temp_max t
      let water_temp_converter := mapOverTime TempEntry.time TempEntry.water_temp_converter t
      let water_temp_motor := mapOverTime TempEntry.time TempEntry.water_temp_motor t
      let custom := custom_plots.map (fun p => CustomValues.from_result (evalFn p.expr d t))
      .ok
        { raw_data := d
          raw_temp := t
          power := power
          velocity := velocity
          torque_set := torque_set
          torque_real := torque_real
          temp := temp
          room_temp := room_temp
          heatsink_temp := heatsink_temp
          ams_temp_max := ams_temp_max
          water_temp_converter := water_temp_converter
          water_temp_motor := water_temp_motor
          custom := custom }

/-- The struct `app::CustomConfig` restricted to the field `try_open` reads. -/
structure CustomConfig where
  plots : List CustomPlot
  deriving DecidableEq, Repr

/-- Modelled from the spec and from the fields of `PlotApp` that
`fs.rs` touches (`app.rs` is not among the sources): the schema version,
the custom-plot configuration, the current session (`data`), the current
structured error, and the last opened file set. -/
structure PlotApp where
  version : Version
  custom : CustomConfig
  data : Option PlotData
  error : Option AppError
  files : Option Files
  deriving DecidableEq, Repr

/-- The open entry point `PlotApp::try_open` (`fs.rs`, lines 98–110): run `open_files` with
the stored version and custom plots, store the session or the error, and
remember the file set. -/
def PlotApp.try_open (readData : ReadData) (readTemp : ReadTemp) (evalFn : EvalFn)
    (app : PlotApp) (files : Files) : PlotApp :=
  match open_files readData readTemp evalFn files app.version app.custom.plots with
  | .ok plot_data => { app with data := some plot_data, error := none, files := some files }
  | .error e => { app with data := none, error := some e, files := some files }

/-- A directory entry result that is an entry, not an I/O error. -/
def DirEntry.isOkEntry : DirEntry → Bool
  | .ok _ => true
  | .err _ => false

/-- A path that `find_files` treats as a data segment: a regular file with
extension `"bin"` whose UTF-8 stem is not `"temperature"` and parses as a
non-negative integer. -/
def isDataSegment (p : FsPath) : Bool :=
  p.isFile &&
    (match filename p with
     | some s => s != "temperature" && (parseUsize s).isSome
     | none => false)

/-- The segment index of a data segment: the integer parsed from its stem
(`0` when the path is not a data segment). -/
def dataKey (p : FsPath) : Nat :=
  ((filename p).bind parseUsize).getD 0

/-- The data segments of a directory listing, in directory-iteration
order, each keyed by its segment index. -/
def keyedCandidates : List DirEntry → List (Nat × FsPath)
  | [] => []
  | .err _ :: rest => keyedCandidates rest
  | .ok p :: rest =>
    if isDataSegment p then (dataKey p, p) :: keyedCandidates rest
    else keyedCandidates rest

/-- The data segments of a directory listing, in directory-iteration
order. -/
def dataCandidates : List DirEntry → List FsPath
  | [] => []
  | .err _ :: rest => dataCandidates rest
  | .ok p :: rest =>
    if isDataSegment p then p :: dataCandidates rest
    else dataCandidates rest

/-- A path that `find_files` treats as the temperature segment: a regular
file with extension `"bin"` and UTF-8 stem `"temperature"`. -/
def isTempSegment (p : FsPath) : Bool :=
  p.isFile && (filename p == some "temperature")

/-- The temperature segments of a directory listing, in
directory-iteration order. -/
def tempCandidates : List DirEntry → List FsPath
  | [] => []
  | .err _ :: rest => tempCandidates rest
  | .ok p :: rest =>
    if isTempSegment p then p :: tempCandidates rest
    else tempCandidates rest

/-- Fold capturing `files.temp = Some(path)` overwriting: the last element
of the list wins, the seed is returned for an empty list. -/
def lastWins (temp : Option FsPath) : List FsPath → Option FsPath
  | [] => temp
  | p :: rest => lastWins (some p) rest

/-- A directory entry that `find_files` silently skips: not a regular
file, or `filename` yields nothing (missing or non-`"bin"` extension,
missing or non-UTF-8 stem), or the stem is neither `"temperature"` nor a
non-negative integer. -/
def ignoredEntry (p : FsPath) : Bool :=
  !p.isFile ||
    (match filename p with
     | none => true
     | some s => s != "temperature" && !(parseUsize s).isSome)

/-! Concrete sample data used to evaluate the theorems on closed inputs. -/

/-- Sample data segment with index 0. -/
def pathSeg0 : FsPath := ⟨true, some "bin", some "0", some "/log/0.bin"⟩

/-- Sample data segment with index 1. -/
def pathSeg1 : FsPath := ⟨true, some "bin", some "1", some "/log/1.bin"⟩

/-- Sample data segment with index 2. -/
def pathSeg2 : FsPath := ⟨true, some "bin", some "2", some "/log/2.bin"⟩

/-- Sample data segment with index 10. -/
def pathSeg10 : FsPath := ⟨true, some "bin", some "10", some "/log/10.bin"⟩

/-- Sample temperature segment. -/
def pathTempA : FsPath := ⟨true, some "bin", some "temperature", some "/log/temperature.bin"⟩

/-- A second, distinct sample temperature segment. -/
def pathTempB : FsPath := ⟨true, some "bin", some "temperature", some "/log2/temperature.bin"⟩

/-- A directory (not a regular file) whose name looks like a temperature
segment. -/
def pathTempDir : FsPath := ⟨false, some "bin", some "temperature", some "/log/temperature.bin"⟩

/-- A regular file that is not a log segment. -/
def pathNotes : FsPath := ⟨true, some "txt", some "notes", some "/log/notes.txt"⟩

/-- A data segment whose full path is not valid UTF-8. -/
def pathSeg0NonUtf8 : FsPath := ⟨true, some "bin", some "0", none⟩

/-- Sample file-system oracle: decoding a segment whose stem is `"0"`
fails with a truncated-record decode error, everything else decodes to no
entries. -/
def readDataW : ReadData := fun p _ =>
  if p.stem = some "0" then .error (.decode "unexpected end of file") else .ok []

/-- Sample temperature oracle: every temperature file decodes to no
entries. -/
def readTempW : ReadTemp := fun _ _ => .ok []

/-- Sample evaluator: the formula `"bad"` fails with an unknown-identifier
error, everything else evaluates to an empty series. -/
def evalFnW : EvalFn := fun s _ _ =>
  if s = "bad" then .error "unknown ident" else .ok []

/-- The session built from empty logs and no custom plots. -/
def emptyPlotData : PlotData :=
  { raw_data := []
    raw_temp := []
    power := ⟨[], [], [], []⟩
    velocity := ⟨[], [], [], []⟩
    torque_set := ⟨[], [], [], []⟩
    torque_real := ⟨[], [], [], []⟩
    temp := ⟨[], [], [], []⟩
    room_temp := ⟨[], [], [], []⟩
    heatsink_temp := ⟨[], [], [], []⟩
    ams_temp_max := []
    water_temp_converter := []
    water_temp_motor := []
    custom := [] }

end S3Plot

namespace S3Plot

-- A few sanity checks of the embedding on concrete directories.

example : parseUsize "10" = some 10 := by decide

example : parseUsize "temperature" = none := by decide

example :
    find_files (.ok
      [.ok ⟨true, some "bin", some "2", some "/d/2.bin"⟩,
       .ok ⟨true, some "bin", some "10", some "/d/10.bin"⟩,
       .ok ⟨true, some "bin", some "temperature", some "/d/temperature.bin"⟩,
       .ok ⟨true, some "bin", some "1", some "/d/1.bin"⟩]) =
    .ok { data :=
            [⟨true, some "bin", some "1", some "/d/1.bin"⟩,
             ⟨true, some "bin", some "2", some "/d/2.bin"⟩,
             ⟨true, some "bin", some "10", some "/d/10.bin"⟩],
          temp := some ⟨true, some "bin", some "temperature", some "/d/temperature.bin"⟩ } := by
  decide

/-! ### Lemmas about the directory-scanning loop -/

/-- One loop step on a successful directory entry, classified into the
three behaviours: temperature segment, data segment, skipped. -/
theorem findFilesLoop_cons_ok (p : FsPath) (rest : List DirEntry)
    (temp : Option FsPath) (paths : List (Nat × FsPath)) :
    findFilesLoop (.ok p :: rest) temp paths =
      if isTempSegment p then findFilesLoop rest (some p) paths
      else if isDataSegment p then
        findFilesLoop rest temp (insertByKey (dataKey p) p paths)
      else findFilesLoop rest temp paths := by
  cases hf : p.isFile with
  | false => simp [findFilesLoop, hf, isTempSegment, isDataSegment]
  | true =>
    cases hn : filename p with
    | none => simp [findFilesLoop, hf, hn, isTempSegment, isDataSegment]
    | some name =>
      by_cases ht : name = "temperature"
      · simp [findFilesLoop, hf, hn, ht, isTempSegment]
      · cases hp : parseUsize name with
        | none => simp [findFilesLoop, hf, hn, ht, hp, isTempSegment, isDataSegment]
        | some n =>
          simp [findFilesLoop, hf, hn, ht, hp, isTempSegment, isDataSegment, dataKey]

/-- A temperature segment is never a data segment. -/
theorem not_data_of_temp {p : FsPath} (h : isTempSegment p = true) :
    isDataSegment p = false := by
  unfold isTempSegment at h
  unfold isDataSegment
  obtain ⟨hf, hn⟩ := Bool.and_eq_true_iff.mp h
  rw [beq_iff_eq] at hn
  simp [hn]

/-- The insert of `find_files` places the new pair somewhere in the list:
the result is a permutation of consing it on. -/
theorem insertByKey_perm (n : Nat) (p : FsPath) (l : List (Nat × FsPath)) :
    (insertByKey n p l).Perm ((n, p) :: l) := by
  induction l with
  | nil => simp [insertByKey]
  | cons kq rest ih =>
    obtain ⟨k, q⟩ := kq
    by_cases h : n < k
    · simp [insertByKey, h]
    · rw [insertByKey, if_neg h]
      exact .trans (.cons (k, q) ih) (.swap (n, p) (k, q) rest)

/-- The insert of `find_files` preserves ascending key order. -/
theorem insertByKey_pairwise (n : Nat) (p : FsPath) (l : List (Nat × FsPath))
    (hl : l.Pairwise (fun a b => a.1 ≤ b.1)) :
    (insertByKey n p l).Pairwise (fun a b => a.1 ≤ b.1) := by
  induction l with
  | nil => simp [insertByKey]
  | cons kq rest ih =>
    obtain ⟨k, q⟩ := kq
    rw [List.pairwise_cons] at hl
    obtain ⟨hk, hrest⟩ := hl
    by_cases h : n < k
    · rw [insertByKey, if_pos h]
      refine List.Pairwise.cons ?_ (List.Pairwise.cons hk hrest)
      intro x hx
      rcases List.mem_cons.mp hx with rfl | hx
      · exact Nat.le_of_lt h
      · exact Nat.le_trans (Nat.le_of_lt h) (hk x hx)
    · rw [insertByKey, if_neg h]
      refine List.Pairwise.cons ?_ (ih hrest)
      intro x hx
      rcases List.mem_cons.mp ((insertByKey_perm n p rest).mem_iff.mp hx) with rfl | hx
      · exact Nat.le_of_not_lt h
      · exact hk x hx

/-- Loop invariant: a successful scan returns the accumulated keyed paths
joined with every data segment of the remaining entries (up to order),
and the temperature slot holds the last temperature segment, the seed
winning only when there are none. -/
theorem findFilesLoop_ok_spec (entries : List DirEntry) :
    ∀ temp paths tOut pOut,
      findFilesLoop entries temp paths = .ok (tOut, pOut) →
      pOut.Perm (paths ++ keyedCandidates entries) ∧
      tOut = lastWins temp (tempCandidates entries) := by
  induction entries with
  | nil =>
    intro temp paths tOut pOut h
    rw [findFilesLoop] at h
    obtain ⟨h1, h2⟩ := Prod.mk.injEq .. ▸ Except.ok.inj h
    subst h1; subst h2
    simp [keyedCandidates, tempCandidates, lastWins]
  | cons d rest ih =>
    intro temp paths tOut pOut h
    cases d with
    | err e => rw [findFilesLoop] at h; exact absurd h (by simp)
    | ok p =>
      rw [findFilesLoop_cons_ok] at h
      by_cases htp : isTempSegment p
      · rw [if_pos htp] at h
        obtain ⟨hperm, hlast⟩ := ih _ _ _ _ h
        refine ⟨?_, ?_⟩
        · rwa [keyedCandidates, if_neg (by simp [not_data_of_temp htp])]
        · rwa [tempCandidates, if_pos htp, lastWins]
      · rw [if_neg htp] at h
        by_cases hdp : isDataSegment p
        · rw [if_pos hdp] at h
          obtain ⟨hperm, hlast⟩ := ih _ _ _ _ h
          refine ⟨?_, ?_⟩
          · rw [keyedCandidates, if_pos hdp]
            refine hperm.trans ?_
            refine .trans ((insertByKey_perm (dataKey p) p paths).append_right _) ?_
            exact List.perm_middle.symm
          · rwa [tempCandidates, if_neg htp]
        · rw [if_neg hdp] at h
          obtain ⟨hperm, hlast⟩ := ih _ _ _ _ h
          refine ⟨?_, ?_⟩
          · rwa [keyedCandidates, if_neg hdp]
          · rwa [tempCandidates, if_neg htp]

/-- Loop invariant: ascending key order of the accumulator is preserved. -/
theorem findFilesLoop_pairwise (entries : List DirEntry) :
    ∀ temp paths tOut pOut,
      findFilesLoop entries temp paths = .ok (tOut, pOut) →
      paths.Pairwise (fun a b => a.1 ≤ b.1) →
      pOut.Pairwise (fun a b => a.1 ≤ b.1) := by
  induction entries with
  | nil =>
    intro temp paths tOut pOut h hs
    rw [findFilesLoop] at h
    obtain ⟨h1, h2⟩ := Prod.mk.injEq .. ▸ Except.ok.inj h
    subst h2; exact hs
  | cons d rest ih =>
    intro temp paths tOut pOut h hs
    cases d with
    | err e => rw [findFilesLoop] at h; exact absurd h (by simp)
    | ok p =>
      rw [findFilesLoop_cons_ok] at h
      by_cases htp : isTempSegment p
      · rw [if_pos htp] at h; exact ih _ _ _ _ h hs
      · rw [if_neg htp] at h
        by_cases hdp : isDataSegment p
        · rw [if_pos hdp] at h
          exact ih _ _ _ _ h (insertByKey_pairwise _ _ _ hs)
        · rw [if_neg hdp] at h; exact ih _ _ _ _ h hs

/-- Every keyed candidate's key is the parsed segment index of its path. -/
theorem keyedCandidates_key_eq (entries : List DirEntry) :
    ∀ kp ∈ keyedCandidates entries, kp.1 = dataKey kp.2 := by
  induction entries with
  | nil => intro kp h; exact absurd h (by simp [keyedCandidates])
  | cons d rest ih =>
    intro kp h
    cases d with
    | err e => exact ih kp (by rwa [keyedCandidates] at h)
    | ok p =>
      rw [keyedCandidates] at h
      by_cases hdp : isDataSegment p
      · rw [if_pos hdp] at h
        rcases List.mem_cons.mp h with rfl | h
        · rfl
        · exact ih kp h
      · rw [if_neg hdp] at h; exact ih kp h

/-- Dropping the keys from the keyed candidates gives the candidate
paths. -/
theorem keyedCandidates_map_snd (entries : List DirEntry) :
    (keyedCandidates entries).map (fun kp => kp.2) = dataCandidates entries := by
  induction entries with
  | nil => rfl
  | cons d rest ih =>
    cases d with
    | err e => rw [keyedCandidates, dataCandidates]; exact ih
    | ok p =>
      rw [keyedCandidates, dataCandidates]
      by_cases hdp : isDataSegment p
      · rw [if_pos hdp, if_pos hdp, List.map_cons, ih]
      · rw [if_neg hdp, if_neg hdp]; exact ih

/-- Evaluation of the last-wins fold: the last candidate, with the seed as
fallback. -/
theorem lastWins_eq (l : List FsPath) :
    ∀ temp, lastWins temp l = (l.getLast?).or temp := by
  induction l with
  | nil => intro temp; rfl
  | cons p rest ih =>
    intro temp
    show lastWins (some p) rest = ((p :: rest).getLast?).or temp
    rw [ih (some p)]
    cases rest with
    | nil => rfl
    | cons q l =>
      rw [List.getLast?_cons_cons]
      obtain ⟨x, hx⟩ :=
        Option.isSome_iff_exists.mp (List.getLast?_isSome.mpr (List.cons_ne_nil q l))
      rw [hx]
      rfl

/-- A scan over error-free entries always succeeds. -/
theorem findFilesLoop_ok_of_entries (entries : List DirEntry) :
    ∀ temp paths, (∀ d ∈ entries, d.isOkEntry = true) →
      ∃ out, findFilesLoop entries temp paths = .ok out := by
  induction entries with
  | nil => exact fun temp paths _ => ⟨(temp, paths), rfl⟩
  | cons d rest ih =>
    intro temp paths hall
    cases d with
    | err e =>
      have := hall (.err e) (List.mem_cons_self _ _)
      exact absurd this (by simp [DirEntry.isOkEntry])
    | ok p =>
      have hrest : ∀ d ∈ rest, d.isOkEntry = true :=
        fun d hd => hall d (List.mem_cons_of_mem _ hd)
      rw [findFilesLoop_cons_ok]
      by_cases h1 : isTempSegment p
      · rw [if_pos h1]; exact ih _ _ hrest
      · rw [if_neg h1]
        by_cases h2 : isDataSegment p
        · rw [if_pos h2]; exact ih _ _ hrest
        · rw [if_neg h2]; exact ih _ _ hrest

/-- A failing scan fails with the error of one of its entries. -/
theorem findFilesLoop_error_mem (entries : List DirEntry) :
    ∀ temp paths e, findFilesLoop entries temp paths = .error e →
      DirEntry.err e ∈ entries := by
  induction entries with
  | nil => intro temp paths e h; rw [findFilesLoop] at h; exact absurd h (by simp)
  | cons d rest ih =>
    intro temp paths e h
    cases d with
    | err e' =>
      rw [findFilesLoop] at h
      rw [Except.error.inj h]
      exact List.mem_cons_self _ _
    | ok p =>
      rw [findFilesLoop_cons_ok] at h
      refine List.mem_cons_of_mem _ ?_
      by_cases h1 : isTempSegment p
      · rw [if_pos h1] at h; exact ih _ _ _ h
      · rw [if_neg h1] at h
        by_cases h2 : isDataSegment p
        · rw [if_pos h2] at h; exact ih _ _ _ h
        · rw [if_neg h2] at h; exact ih _ _ _ h

/-- A skipped entry is neither the temperature segment nor a data
segment. -/
theorem ignored_not_segments {p : FsPath} (h : ignoredEntry p = true) :
    isTempSegment p = false ∧ isDataSegment p = false := by
  unfold ignoredEntry at h
  unfold isTempSegment isDataSegment
  cases hf : p.isFile with
  | false => simp
  | true =>
    rw [hf] at h
    simp only [Bool.not_true, Bool.false_or] at h
    cases hn : filename p with
    | none => simp
    | some s =>
      rw [hn] at h
      obtain ⟨hs, hp⟩ := Bool.and_eq_true_iff.mp h
      have hne : s ≠ "temperature" := by simpa using hs
      simp [hne, Bool.not_eq_true', Option.not_isSome_iff_eq_none] at hp ⊢
      exact hp

/-- Removing a skipped entry anywhere in the listing leaves the scan
unchanged. -/
theorem findFilesLoop_ignore_middle (pre : List DirEntry) (p : FsPath)
    (hp : ignoredEntry p = true) (post : List DirEntry) :
    ∀ temp paths,
      findFilesLoop (pre ++ DirEntry.ok p :: post) temp paths =
        findFilesLoop (pre ++ post) temp paths := by
  obtain ⟨h1, h2⟩ := ignored_not_segments hp
  induction pre with
  | nil =>
    intro temp paths
    rw [List.nil_append, List.nil_append, findFilesLoop_cons_ok, h1, h2]
    simp
  | cons d rest ih =>
    intro temp paths
    cases d with
    | err e => rfl
    | ok q =>
      rw [List.cons_append, List.cons_append, findFilesLoop_cons_ok, findFilesLoop_cons_ok]
      by_cases hq1 : isTempSegment q
      · rw [if_pos hq1, if_pos hq1]; exact ih _ _
      · rw [if_neg hq1, if_neg hq1]
        by_cases hq2 : isDataSegment q
        · rw [if_pos hq2, if_pos hq2]; exact ih _ _
        · rw [if_neg hq2, if_neg hq2]; exact ih _ _

/-! ### Lemmas about the data-file loop of `open_files` -/

/-- If every file before `p` decodes and `p` fails, the data loop stops at
`p` with the error built from `p`, whatever comes after and whatever log
was accumulated so far. -/
theorem openDataLoop_append_error (readData : ReadData) (version : Version)
    (p : FsPath) (post : List FsPath) (e : DataError) (hp : readData p version = .error e) :
    ∀ (pre : List FsPath) (d : List DataEntry),
      (∀ q ∈ pre, (readData q version).isOk = true) →
      openDataLoop readData version (pre ++ p :: post) d =
        .error { file := p.pathUtf8.getD "", msg := e.toMsg } := by
  intro pre
  induction pre with
  | nil => intro d _; rw [List.nil_append, openDataLoop, hp]
  | cons q rest ih =>
    intro d hall
    have hq := hall q (List.mem_cons_self _ _)
    cases hqv : readData q version with
    | error e' => rw [hqv] at hq; exact absurd hq (by simp [Except.isOk, Except.toBool])
    | ok es =>
      rw [List.cons_append, openDataLoop, hqv]
      exact ih _ (fun r hr => hall r (List.mem_cons_of_mem _ hr))

/-- Unfolding of `find_files` on a readable directory. -/
theorem find_files_ok_arg (entries : List DirEntry) :
    find_files (.ok entries) =
      match findFilesLoop entries none [] with
      | .error e => .error e
      | .ok (temp, paths) => .ok { data := paths.map (fun kp => kp.2), temp := temp } := rfl

/-! ### Claims about file discovery -/

/-- C2: for every readable directory, `find_files` returns the
data-segment paths sorted in ascending order of the non-negative integer
parsed from each file's base name (`dataKey`): the resulting `data` list
is pairwise ordered by `dataKey` and is a permutation of the directory's
data segments (so numeric, not lexicographic, order decides). -/
theorem find_files_data_sorted_numerically (entries : List DirEntry) (fs : Files)
    (h : find_files (.ok entries) = .ok fs) :
    fs.data.Pairwise (fun a b => dataKey a ≤ dataKey b) ∧
    fs.data.Perm (dataCandidates entries) := by
  rw [find_files_ok_arg] at h
  cases hl : findFilesLoop entries none [] with
  | error e => rw [hl] at h; exact absurd h (by simp)
  | ok out =>
    obtain ⟨tOut, pOut⟩ := out
    rw [hl] at h
    have hfs : fs = { data := pOut.map (fun kp => kp.2), temp := tOut } :=
      (Except.ok.inj h).symm
    have hdata : fs.data = pOut.map (fun kp => kp.2) := by rw [hfs]
    obtain ⟨hperm, _⟩ := findFilesLoop_ok_spec entries none [] tOut pOut hl
    rw [List.nil_append] at hperm
    have hkeys : ∀ kp ∈ pOut, kp.1 = dataKey kp.2 :=
      fun kp hkp => keyedCandidates_key_eq entries kp (hperm.mem_iff.mp hkp)
    constructor
    · have hpair := findFilesLoop_pairwise entries none [] tOut pOut hl List.Pairwise.nil
      rw [hdata, List.pairwise_map]
      refine hpair.imp_of_mem ?_
      intro a b ha hb hr
      rw [← hkeys a ha, ← hkeys b hb]
      exact hr
    · rw [hdata]
      have hm := hperm.map (fun kp => kp.2)
      rwa [keyedCandidates_map_snd] at hm

/-- C2 witness: a directory listing segments 2, 10, 1 (and a temperature
file) resolves to the data list 1, 2, 10: numerically ordered and a
permutation of the three data segments. -/
theorem find_files_data_sorted_numerically_witness :
    ({ data := [pathSeg1, pathSeg2, pathSeg10], temp := some pathTempA } : Files).data.Pairwise
        (fun a b => dataKey a ≤ dataKey b) ∧
    ({ data := [pathSeg1, pathSeg2, pathSeg10], temp := some pathTempA } : Files).data.Perm
        (dataCandidates [.ok pathSeg2, .ok pathSeg10, .ok pathTempA, .ok pathSeg1]) :=
  find_files_data_sorted_numerically
    [.ok pathSeg2, .ok pathSeg10, .ok pathTempA, .ok pathSeg1]
    { data := [pathSeg1, pathSeg2, pathSeg10], temp := some pathTempA }
    (by decide)

/-- C5 counterexample: the claim's recognition rule ("a directory entry is
the temperature segment exactly when its extension is the log extension
and its base name equals `temperature`") fails on the code: an entry that
is not a regular file, with extension `bin` and base name `temperature`,
is not recognized — `find_files` leaves the temperature slot empty. -/
theorem find_files_temp_needs_regular_file_cex :
    pathTempDir.ext = some "bin" ∧
    pathTempDir.stem = some "temperature" ∧
    find_files (.ok [.ok pathTempDir]) = .ok { data := [], temp := none } := by
  decide

/-- C5 (amended): a directory entry is the temperature segment exactly
when it is a regular file whose extension is the log extension and whose
base name equals `temperature` (`isTempSegment`); among several such
files, the last one in directory-iteration order is kept. -/
theorem find_files_temp_recognition_last_wins (entries : List DirEntry) (fs : Files)
    (h : find_files (.ok entries) = .ok fs) :
    fs.temp = (tempCandidates entries).getLast? := by
  rw [find_files_ok_arg] at h
  cases hl : findFilesLoop entries none [] with
  | error e => rw [hl] at h; exact absurd h (by simp)
  | ok out =>
    obtain ⟨tOut, pOut⟩ := out
    rw [hl] at h
    have hfs : fs = { data := pOut.map (fun kp => kp.2), temp := tOut } :=
      (Except.ok.inj h).symm
    have htemp : fs.temp = tOut := by rw [hfs]
    obtain ⟨_, hlast⟩ := findFilesLoop_ok_spec entries none [] tOut pOut hl
    rw [htemp, hlast, lastWins_eq]
    cases (tempCandidates entries).getLast? <;> rfl

/-- C5 witness: with two temperature files in the listing, the second
(last) one is kept. -/
theorem find_files_temp_recognition_last_wins_witness :
    ({ data := [pathSeg1], temp := some pathTempB } : Files).temp =
      (tempCandidates [.ok pathTempA, .ok pathSeg1, .ok pathTempB]).getLast? :=
  find_files_temp_recognition_last_wins
    [.ok pathTempA, .ok pathSeg1, .ok pathTempB]
    { data := [pathSeg1], temp := some pathTempB }
    (by decide)

/-- C6: file discovery cannot fail except on an unreadable directory: an
unreadable directory's error is returned as-is; when every entry of the
listing is readable, `find_files` succeeds (it consults no file contents:
its argument is only the directory listing); and when it fails, the error
is the error of one of the directory's entries. -/
theorem find_files_fails_only_on_unreadable_dir :
    (∀ e, find_files (.error e) = .error e) ∧
    (∀ entries, (∀ d ∈ entries, d.isOkEntry = true) →
      (find_files (.ok entries)).isOk = true) ∧
    (∀ entries e, find_files (.ok entries) = .error e → DirEntry.err e ∈ entries) := by
  refine ⟨fun e => rfl, ?_, ?_⟩
  · intro entries hall
    obtain ⟨out, hout⟩ := findFilesLoop_ok_of_entries entries none [] hall
    obtain ⟨t0, p0⟩ := out
    rw [find_files_ok_arg, hout]
    rfl
  · intro entries e h
    rw [find_files_ok_arg] at h
    cases hl : findFilesLoop entries none [] with
    | error e' =>
      rw [hl] at h
      exact findFilesLoop_error_mem entries _ _ _ ((Except.error.inj h) ▸ hl)
    | ok out =>
      obtain ⟨t0, p0⟩ := out
      rw [hl] at h
      exact absurd h (by simp)

/-- C6 witness: a readable directory with one data and one temperature
segment resolves successfully. -/
theorem find_files_fails_only_on_unreadable_dir_witness :
    (find_files (.ok [DirEntry.ok pathSeg1, DirEntry.ok pathTempA])).isOk = true :=
  find_files_fails_only_on_unreadable_dir.2.1
    [DirEntry.ok pathSeg1, DirEntry.ok pathTempA] (by decide)

/-- C10: an entry that is not a regular file, lacks the `bin` extension,
has a missing or non-UTF-8 base name, or whose base name is neither
`temperature` nor a non-negative integer (`ignoredEntry`) is silently
skipped: deleting it from the listing changes nothing — so it never causes
an error and never appears in the resolved file set. -/
theorem find_files_silently_skips_ignored (pre post : List DirEntry) (p : FsPath)
    (hp : ignoredEntry p = true) :
    find_files (.ok (pre ++ DirEntry.ok p :: post)) = find_files (.ok (pre ++ post)) := by
  rw [find_files_ok_arg, find_files_ok_arg, findFilesLoop_ignore_middle pre p hp post]

/-- C10 witness: a `.txt` file in the directory leaves the result exactly
as if it were absent. -/
theorem find_files_silently_skips_ignored_witness :
    find_files (.ok ([DirEntry.ok pathSeg1] ++ DirEntry.ok pathNotes :: [DirEntry.ok pathTempA])) =
      find_files (.ok ([DirEntry.ok pathSeg1] ++ [DirEntry.ok pathTempA])) :=
  find_files_silently_skips_ignored
    [DirEntry.ok pathSeg1] [DirEntry.ok pathTempA] pathNotes (by decide)

/-! ### Claims about session assembly -/

/-- C1: the session build is all-or-nothing for the logs. If every data
file before `p` decodes and opening or decoding `p` fails, `open_files`
returns the error carrying `p`'s path and the failure reason — whatever
the files after `p` are (so no later file is consulted), and the `error`
result carries no log or session value of any kind. -/
theorem open_files_all_or_nothing
    (readData : ReadData) (readTemp : ReadTemp) (evalFn : EvalFn)
    (files : Files) (version : Version) (custom_plots : List CustomPlot)
    (pre post : List FsPath) (p : FsPath) (e : DataError)
    (hsplit : files.data = pre ++ p :: post)
    (hpre : ∀ q ∈ pre, (readData q version).isOk = true)
    (hp : readData p version = .error e) :
    open_files readData readTemp evalFn files version custom_plots =
      .error { file := p.pathUtf8.getD "", msg := e.toMsg } := by
  unfold open_files
  rw [hsplit, openDataLoop_append_error readData version p post e hp pre [] hpre]

/-- C1 witness: with segments 0 and 1 where 0 holds a truncated record,
assembly fails with the decode error naming segment 0, for any contents
of segment 1. -/
theorem open_files_all_or_nothing_witness :
    open_files readDataW readTempW evalFnW
        { data := [pathSeg0, pathSeg1], temp := none } ⟨1⟩ [] =
      .error { file := "/log/0.bin", msg := "unexpected end of file" } :=
  open_files_all_or_nothing readDataW readTempW evalFnW
    { data := [pathSeg0, pathSeg1], temp := none } ⟨1⟩ []
    [] [pathSeg1] pathSeg0 (.decode "unexpected end of file")
    rfl (by decide) (by decide)

/-- C3: when both logs decode, the session is constructed successfully and
its custom results are exactly the per-formula results, in order: the
`i`-th slot is the wrapped result of evaluating the `i`-th formula alone,
so one formula's failure cannot affect any other slot or the session. -/
theorem open_files_customs_independent
    (readData : ReadData) (readTemp : ReadTemp) (evalFn : EvalFn)
    (files : Files) (version : Version) (custom_plots : List CustomPlot)
    (d : List DataEntry) (t : List TempEntry)
    (hd : openDataLoop readData version files.data [] = .ok d)
    (ht : readTempOpt readTemp version files.temp = .ok t) :
    ∃ pd, open_files readData readTemp evalFn files version custom_plots = .ok pd ∧
      pd.custom =
        custom_plots.map (fun cp => CustomValues.from_result (evalFn cp.expr d t)) ∧
      pd.custom.length = custom_plots.length := by
  unfold open_files
  rw [hd, ht]
  exact ⟨_, rfl, rfl, by simp⟩

/-- C3 witness: of two formulas, one unknown-identifier failure and one
success, both slots are filled, in order, and the session is built. -/
theorem open_files_customs_independent_witness :
    ∃ pd, open_files readDataW readTempW evalFnW
        { data := [pathSeg1], temp := none } ⟨1⟩ [⟨"bad"⟩, ⟨"power_fl"⟩] = .ok pd ∧
      pd.custom = [CustomValues.err "unknown ident", CustomValues.ok []] ∧
      pd.custom.length = 2 :=
  open_files_customs_independent readDataW readTempW evalFnW
    { data := [pathSeg1], temp := none } ⟨1⟩ [⟨"bad"⟩, ⟨"power_fl"⟩] [] [] rfl rfl

/-- C4: a file set without a temperature path builds its session on the
default (empty) temperature log, and every temperature-derived series of
that session is empty. -/
theorem open_files_absent_temp_empty
    (readData : ReadData) (readTemp : ReadTemp) (evalFn : EvalFn)
    (files : Files) (version : Version) (custom_plots : List CustomPlot)
    (pd : PlotData)
    (htemp : files.temp = none)
    (hok : open_files readData readTemp evalFn files version custom_plots = .ok pd) :
    pd.raw_temp = [] ∧
    pd.temp = ⟨[], [], [], []⟩ ∧
    pd.room_temp = ⟨[], [], [], []⟩ ∧
    pd.heatsink_temp = ⟨[], [], [], []⟩ ∧
    pd.ams_temp_max = [] ∧
    pd.water_temp_converter = [] ∧
    pd.water_temp_motor = [] := by
  unfold open_files at hok
  rw [htemp] at hok
  cases hd : openDataLoop readData version files.data [] with
  | error e => rw [hd] at hok; exact absurd hok (by simp)
  | ok d =>
    rw [hd] at hok
    have hpd := (Except.ok.inj hok).symm
    subst hpd
    exact ⟨rfl, rfl, rfl, rfl, rfl, rfl, rfl⟩

/-- C4 witness: opening one data segment with no temperature file yields
the session with empty temperature log and empty derived temperature
series. -/
theorem open_files_absent_temp_empty_witness :
    emptyPlotData.raw_temp = [] ∧
    emptyPlotData.temp = ⟨[], [], [], []⟩ ∧
    emptyPlotData.room_temp = ⟨[], [], [], []⟩ ∧
    emptyPlotData.heatsink_temp = ⟨[], [], [], []⟩ ∧
    emptyPlotData.ams_temp_max = [] ∧
    emptyPlotData.water_temp_converter = [] ∧
    emptyPlotData.water_temp_motor = [] :=
  open_files_absent_temp_empty readDataW readTempW evalFnW
    { data := [pathSeg1], temp := none } ⟨1⟩ [] emptyPlotData rfl (by decide)

/-- C8: when the failing file's path is not valid UTF-8, the session-fatal
error carries the empty string as the file name — for a failing data
segment and for a failing temperature segment alike. -/
theorem open_files_non_utf8_empty_file_name
    (readData : ReadData) (readTemp : ReadTemp) (evalFn : EvalFn)
    (files : Files) (version : Version) (custom_plots : List CustomPlot) :
    (∀ pre post p e, files.data = pre ++ p :: post →
       (∀ q ∈ pre, (readData q version).isOk = true) →
       readData p version = .error e → p.pathUtf8 = none →
       open_files readData readTemp evalFn files version custom_plots =
         .error { file := "", msg := e.toMsg }) ∧
    (∀ p e d, files.temp = some p →
       openDataLoop readData version files.data [] = .ok d →
       readTemp p version = .error e → p.pathUtf8 = none →
       open_files readData readTemp evalFn files version custom_plots =
         .error { file := "", msg := e.toMsg }) := by
  constructor
  · intro pre post p e hsplit hpre hp hu
    have h := openDataLoop_append_error readData version p post e hp pre [] hpre
    rw [hu] at h
    unfold open_files
    rw [hsplit, h]
    rfl
  · intro p e d htemp hd hrt hu
    unfold open_files
    rw [hd, htemp, readTempOpt, hrt, hu]
    rfl

/-- C8 witness: a truncated segment whose path is not UTF-8 produces the
error with an empty file name. -/
theorem open_files_non_utf8_empty_file_name_witness :
    open_files readDataW readTempW evalFnW
        { data := [pathSeg0NonUtf8], temp := none } ⟨1⟩ [] =
      .error { file := "", msg := "unexpected end of file" } :=
  (open_files_non_utf8_empty_file_name readDataW readTempW evalFnW
      { data := [pathSeg0NonUtf8], temp := none } ⟨1⟩ []).1
    [] [] pathSeg0NonUtf8 (.decode "unexpected end of file") rfl (by decide) (by decide) rfl

/-! ### Claims about the open entry point -/

/-- C7: `try_open` replaces the session wholesale: on success the stored
data becomes the new session and the error is cleared; on failure the
previous session is discarded and the error stored; and nothing else of
the application state changes — in particular the schema version and the
custom-plot configuration are untouched. -/
theorem try_open_replaces_session_wholesale
    (readData : ReadData) (readTemp : ReadTemp) (evalFn : EvalFn)
    (app : PlotApp) (files : Files) :
    ((app.try_open readData readTemp evalFn files).data,
      (app.try_open readData readTemp evalFn files).error) =
      (match open_files readData readTemp evalFn files app.version app.custom.plots with
       | .ok pd => (some pd, none)
       | .error e => (none, some e)) ∧
    (app.try_open readData readTemp evalFn files).version = app.version ∧
    (app.try_open readData readTemp evalFn files).custom = app.custom := by
  unfold PlotApp.try_open
  cases open_files readData readTemp evalFn files app.version app.custom.plots <;>
    exact ⟨rfl, rfl, rfl⟩

/-- C9: after every `try_open`, successful or not, the remembered file set
is exactly the one passed in. -/
theorem try_open_remembers_files
    (readData : ReadData) (readTemp : ReadTemp) (evalFn : EvalFn)
    (app : PlotApp) (files : Files) :
    (app.try_open readData readTemp evalFn files).files = some files := by
  unfold PlotApp.try_open
  cases open_files readData readTemp evalFn files app.version app.custom.plots <;> rfl

end S3Plot
